import Mathlib

/-!
Verification development for the `exposedfunctionality` repository
(`exposedfunctionality/function_parser/types.py`,
`exposedfunctionality/function_parser/docstring_parser.py`, and the
merge/signature layer of `exposedfunctionality/function_parser`).

The Python code is shallowly embedded: Python strings are Lean `String`s
manipulated through character-list helpers (so that every operation reduces
in the kernel), Python type objects are the inductive `PyType`, the
process-wide name/type registry is the explicit `Registry` state threaded
through every call, and Python exceptions are the `Except PyExc` monad.
Recursive string-consuming functions carry an explicit fuel argument; fuel
exhaustion models Python's recursion limit and is never reached in any
theorem below (all uses supply fuel larger than the input size).
-/

deriving instance DecidableEq for Except

namespace ExposedFunctionality

/-! ## Character-list string primitives (Python `str` semantics) -/

/-- Python `str.isspace` characters relevant to `str.strip()`. -/
def pyIsSpace (c : Char) : Bool :=
  c = ' ' || c = '\t' || c = '\n' || c = '\r' || c = '\x0b' || c = '\x0c'

/-- Python `\w` on ASCII input: letters, digits and underscore. -/
def isWordChar (c : Char) : Bool :=
  c.isAlphanum || c = '_'

/-- Strip characters satisfying `p` from both ends (Python `str.strip`). -/
def stripWhile (p : Char → Bool) (cs : List Char) : List Char :=
  ((cs.dropWhile p).reverse.dropWhile p).reverse

/-- Python `s.strip()`. -/
def pyStrip (s : String) : String :=
  String.mk (stripWhile pyIsSpace s.toList)

/-- Python `s.strip(chars)` for an explicit character set. -/
def pyStripChars (chars : List Char) (s : String) : String :=
  String.mk (stripWhile (fun c => chars.contains c) s.toList)

/-- Substring test on character lists (Python `sub in s`). -/
def hasSubL (sub : List Char) : List Char → Bool
  | [] => sub.isEmpty
  | c :: rest => sub.isPrefixOf (c :: rest) || hasSubL sub rest

/-- Python `sub in s`. -/
def pyContains (s sub : String) : Bool :=
  hasSubL sub.toList s.toList

/-- First index at which `sub` occurs in `cs`, if any. -/
def findSubL (sub : List Char) : List Char → Option Nat
  | [] => if sub.isEmpty then some 0 else none
  | c :: rest =>
    if sub.isPrefixOf (c :: rest) then some 0
    else (findSubL sub rest).map (· + 1)

/-- Python `s.split(sep)` on character lists, fuel-driven. -/
def splitOnL (sep : List Char) : Nat → List Char → List (List Char)
  | 0, cs => [cs]
  | fuel + 1, cs =>
    match findSubL sep cs with
    | none => [cs]
    | some i => cs.take i :: splitOnL sep fuel (cs.drop (i + sep.length))

/-- Python `s.split(sep)` (for non-empty `sep`). -/
def pySplit (s sep : String) : List String :=
  if sep.isEmpty then [s]
  else (splitOnL sep.toList (s.toList.length + 1) s.toList).map String.mk

/-- Python `s.replace(old, new)` on character lists, fuel-driven. -/
def replaceL (old new : List Char) : Nat → List Char → List Char
  | 0, cs => cs
  | fuel + 1, cs =>
    match findSubL old cs with
    | none => cs
    | some i =>
      cs.take i ++ new ++ replaceL old new fuel (cs.drop (i + old.length))

/-- Python `s.replace(old, new)` (for non-empty `old`). -/
def pyReplace (s old new : String) : String :=
  if old.isEmpty then s
  else String.mk (replaceL old.toList new.toList (s.toList.length + 1) s.toList)

/-- Python `s.startswith(p)`. -/
def pyStartsWith (s p : String) : Bool :=
  p.toList.isPrefixOf s.toList

/-- Python `s.endswith(p)`. -/
def pyEndsWith (s p : String) : Bool :=
  p.toList.reverse.isPrefixOf s.toList.reverse

/-- Python `s.lower()` (ASCII). -/
def pyLower (s : String) : String :=
  String.mk (s.toList.map Char.toLower)

/-- Python `"sep".join(parts)`. -/
def pyJoin (sep : String) (parts : List String) : String :=
  String.intercalate sep parts

/-- Python `s.split(sep)` restricted to lines: `s.split("\n")`. -/
def pyLines (s : String) : List String :=
  pySplit s "\n"

/-- Python `int(s)` textual parse: optional sign and a nonempty digit run,
surrounded by optional whitespace (underscore separators are not modelled;
no input in this development contains them). -/
def pyParseInt (s : String) : Option Int :=
  let cs := stripWhile pyIsSpace s.toList
  let (sign, digits) :=
    match cs with
    | '-' :: rest => (true, rest)
    | '+' :: rest => (false, rest)
    | rest => (false, rest)
  if digits.isEmpty || !digits.all Char.isDigit then
    none
  else
    let n : Nat := digits.foldl (fun acc c => acc * 10 + (c.toNat - '0'.toNat)) 0
    some (if sign then -(n : Int) else (n : Int))

/-- Concatenation with an index: `["a","b"] → [(0,"a"),(1,"b")]` helper. -/
def withIndex {α : Type} (l : List α) : List (Nat × α) :=
  (List.range l.length).zip l

/-! ## Python values and exceptions -/

/- Python runtime values appearing as parameter defaults in this code base.
Containers use an inlined list encoding (`ValList`) because Lean 4.14 cannot
derive decidable equality for nested inductives. Dict entries are kept in
insertion order; no theorem below compares dicts that differ only in order. -/
mutual
/-- Python runtime value (parameter defaults and coercion results). -/
inductive Val where
  | vInt (n : Int)
  | vStr (s : String)
  | vBool (b : Bool)
  | vNone
  | vList (xs : ValList)
  | vSet (xs : ValList)
  | vDict (entries : ValPairList)
deriving DecidableEq, Repr

inductive ValList where
  | nil
  | cons (head : Val) (tail : ValList)
deriving DecidableEq, Repr

inductive ValPairList where
  | nil
  | cons (key value : Val) (tail : ValPairList)
deriving DecidableEq, Repr
end

/-- Python exceptions raised by the embedded code. -/
inductive PyExc where
  | valueError (msg : String)
  | typeError (msg : String)
  | typeNotFoundError (typeName : String)
  | indexError
  | keyError (key : String)
  | attributeError
  | nameError
  | importError (module : String)
  | functionParamError (msg : String)
  | recursionError
deriving DecidableEq, Repr

/-! ## Python type objects (`types.py`)

`PyType.atom` covers the built-in classes and `typing` special forms seeded
into `ALLOWED_BUILTINS`, keyed by their canonical seed name; `custom m n`
models an importable class `n` living in module `m`. Composite typing
generics carry their arguments through the inlined list `PyTypeList`
(nested-inductive deriving limitation, as for `Val`). -/

/-- Literal values admissible inside `typing.Literal[...]` in this code base
(`ast.literal_eval` is modelled for int, quoted-string, bool and None
literals — the only literal forms these sources construct). -/
inductive PyLit where
  | li (n : Int)
  | ls (v : String)
  | lb (v : Bool)
  | lnone
deriving DecidableEq, Repr

mutual
/-- A Python type object as handled by `types.py`. -/
inductive PyType where
  | atom (name : String)
  | custom (module : String) (name : String)
  | tList (a : PyType)
  | tDict (k v : PyType)
  | tTuple (args : PyTypeList)
  | tUnion (args : PyTypeList)
  | tType (a : PyType)
  | tSet (a : PyType)
  | tLiteral (vals : List PyLit)
deriving DecidableEq, Repr

inductive PyTypeList where
  | nil
  | cons (head : PyType) (tail : PyTypeList)
deriving DecidableEq, Repr
end

def PyTypeList.toList : PyTypeList → List PyType
  | .nil => []
  | .cons h t => h :: t.toList

def PyTypeList.ofList : List PyType → PyTypeList
  | [] => .nil
  | h :: t => .cons h (PyTypeList.ofList t)

/-- `typing.Union[args]` construction: flattens member unions, removes
duplicates keeping the first occurrence, and collapses a single remaining
member to that member (Python `Union[X] is X`). -/
def unionOf (args : List PyType) : PyType :=
  let flat := args.flatMap fun a =>
    match a with
    | .tUnion l => l.toList
    | other => [other]
  let dedup := flat.foldl (fun acc t => if acc.contains t then acc else acc ++ [t]) []
  match dedup with
  | [t] => t
  | l => .tUnion (PyTypeList.ofList l)

/-- `typing.Optional[X] = Union[X, None]`. -/
def optionalOf (t : PyType) : PyType :=
  unionOf [t, .atom "None"]

/-- The argument taken by `string_to_type`/`type_to_string`
(Python `Union[type, str]`, plus a tag for any other runtime value so the
`TypeError` branch is representable). -/
inductive StrOrType where
  | str (s : String)
  | ty (t : PyType)
  | otherValue
deriving DecidableEq, Repr

/-! ## The process-wide registry (`_TYPE_GETTER` / `_STRING_GETTER`) -/

/-- The registry state: the name→type mapping `_TYPE_GETTER`, the
type→name mapping `_STRING_GETTER`, and the importable-module environment
consulted by the dotted-path branch of `string_to_type`
(`importlib.import_module` is modelled as a lookup in `modules`). -/
structure Registry where
  typeGetter : List (String × PyType)
  stringGetter : List (PyType × String)
  modules : List (String × List (String × PyType))
deriving DecidableEq, Repr

def lookupName (reg : Registry) (name : String) : Option PyType :=
  (reg.typeGetter.find? (fun p => p.1 = name)).map Prod.snd

def lookupType (reg : Registry) (t : PyType) : Option String :=
  (reg.stringGetter.find? (fun p => p.1 = t)).map Prod.snd

/-- `ALLOWED_BUILTINS`, in source order (order matters when seeding
`_STRING_GETTER`: the first name mapping to an identity wins). -/
def ALLOWED_BUILTINS : List (String × PyType) :=
  [("int", .atom "int"), ("float", .atom "float"), ("str", .atom "str"),
   ("list", .atom "list"), ("dict", .atom "dict"), ("tuple", .atom "tuple"),
   ("set", .atom "set"), ("bool", .atom "bool"), ("bytes", .atom "bytes"),
   ("bytearray", .atom "bytearray"), ("complex", .atom "complex"),
   ("frozenset", .atom "frozenset"), ("memoryview", .atom "memoryview"),
   ("range", .atom "range"), ("slice", .atom "slice"), ("type", .atom "type"),
   ("Any", .atom "Any"), ("Optional", .atom "Optional"),
   ("Union", .atom "Union"), ("Type", .atom "Type"), ("List", .atom "list"),
   ("Dict", .atom "dict"), ("Tuple", .atom "tuple"),
   ("Literal", .atom "Literal"), ("Set", .atom "set"), ("None", .atom "None")]

/-- Module-initialization of `_TYPE_GETTER`/`_STRING_GETTER`: the string
getter is seeded from the builtins (first name per identity wins), then the
extra aliases `integer`, `floating`, `string`, `boolean`, `number` are added
to the type getter only. -/
def initialRegistry : Registry :=
  let sg := ALLOWED_BUILTINS.foldl
    (fun (acc : List (PyType × String)) p =>
      if (acc.find? (fun q => q.1 = p.2)).isSome then acc
      else acc ++ [(p.2, p.1)])
    []
  { typeGetter := ALLOWED_BUILTINS ++
      [("integer", .atom "int"), ("floating", .atom "float"),
       ("string", .atom "str"), ("boolean", .atom "bool"),
       ("number", unionOf [.atom "int", .atom "float"])]
    stringGetter := sg
    modules := [] }

/-- `types.add_type`: raises `ValueError` when the name is taken; otherwise
appends the name→type entry and, only when the identity has no canonical
name yet, the type→name entry. -/
def add_type (reg : Registry) (type_ : PyType) (name : String) :
    Except PyExc Registry :=
  if (lookupName reg name).isSome then
    .error (.valueError ("Type " ++ name ++ " already exists."))
  else
    .ok { reg with
          typeGetter := reg.typeGetter ++ [(name, type_)]
          stringGetter :=
            if (lookupType reg type_).isSome then reg.stringGetter
            else reg.stringGetter ++ [(type_, name)] }

/-- `try: add_type(...) except ValueError: pass` — the swallowed-collision
pattern used by both codec directions. -/
def addTypeSwallow (reg : Registry) (type_ : PyType) (name : String) :
    Registry :=
  match add_type reg type_ name with
  | .ok reg' => reg'
  | .error _ => reg

/-! ## The textual type codec (`string_to_type` / `type_to_string`) -/

/-- Python `repr` of a literal value as it appears inside
`str(tuple(t.__args__))`. String literals are rendered with single quotes;
no string handled in this development contains a quote character. -/
def pyReprLit : PyLit → String
  | .li n => toString n
  | .ls v => "'" ++ v ++ "'"
  | .lb true => "True"
  | .lb false => "False"
  | .lnone => "None"

/-- `str(tuple(args))[1:-1]`: comma-space separated reprs, with Python's
trailing comma for a one-element tuple. -/
def pyTupleReprInner : List PyLit → String
  | [] => ""
  | [v] => pyReprLit v ++ ","
  | vs => pyJoin ", " (vs.map pyReprLit)

/-- State-threading `map` used wherever the Python code iterates while
mutating the registry. -/
def mapMState {α β : Type} (f : Registry → α → Except PyExc (β × Registry)) :
    Registry → List α → Except PyExc (List β × Registry)
  | reg, [] => .ok ([], reg)
  | reg, a :: rest =>
    match f reg a with
    | .error e => .error e
    | .ok (b, reg') =>
      match mapMState f reg' rest with
      | .error e => .error e
      | .ok (bs, reg'') => .ok (b :: bs, reg'')

/-- Display name used in `TypeNotFoundError` payloads for non-string inputs
(the Python message interpolates the object; its exact text is irrelevant to
every claim, only the exception kind is). -/
def pyTypeTag : PyType → String
  | .atom n => n
  | .custom m n => m ++ "." ++ n
  | _ => "typing-generic"

/-- `types.type_to_string` on an actual type object: canonical-name lookup
first, then the `get_by_typing` structural rendering (which registers the
rendered name best-effort), then the `__module__.__name__` import fallback.
Fuel only bounds recursion depth; it exceeds the nesting depth of every
type in this development. -/
def type_to_string_ty : Nat → Registry → PyType → Except PyExc (String × Registry)
  | 0, _, _ => .error .recursionError
  | fuel + 1, reg, t =>
    match lookupType reg t with
    | some s => .ok (s, reg)
    | none =>
      let finish : Registry → String → Except PyExc (String × Registry) :=
        fun reg' ans => .ok (ans, addTypeSwallow reg' t ans)
      match t with
      | .tList a =>
        match type_to_string_ty fuel reg a with
        | .error e => .error e
        | .ok (s, reg') => finish reg' ("List[" ++ s ++ "]")
      | .tDict k v =>
        match type_to_string_ty fuel reg k with
        | .error e => .error e
        | .ok (ks, reg') =>
          match type_to_string_ty fuel reg' v with
          | .error e => .error e
          | .ok (vs, reg'') => finish reg'' ("Dict[" ++ ks ++ ", " ++ vs ++ "]")
      | .tTuple args =>
        match mapMState (fun r t' => type_to_string_ty fuel r t') reg args.toList with
        | .error e => .error e
        | .ok (ss, reg') => finish reg' ("Tuple[" ++ pyJoin ", " ss ++ "]")
      | .tUnion args =>
        match mapMState (fun r t' => type_to_string_ty fuel r t') reg args.toList with
        | .error e => .error e
        | .ok (ss, reg') => finish reg' ("Union[" ++ pyJoin ", " ss ++ "]")
      | .tType a =>
        match type_to_string_ty fuel reg a with
        | .error e => .error e
        | .ok (s, reg') => finish reg' ("Type[" ++ s ++ "]")
      | .tSet a =>
        match type_to_string_ty fuel reg a with
        | .error e => .error e
        | .ok (s, reg') => finish reg' ("Set[" ++ s ++ "]")
      | .tLiteral vals => finish reg ("Literal[" ++ pyTupleReprInner vals ++ "]")
      | .custom m n =>
        match (reg.modules.find? (fun p => p.1 = m)).map Prod.snd with
        | some attrs =>
          if (attrs.find? (fun p => p.1 = n)).isSome then
            finish reg (m ++ "." ++ n)
          else .error (.typeNotFoundError (pyTypeTag t))
        | none => .error (.typeNotFoundError (pyTypeTag t))
      | .atom n => .error (.typeNotFoundError n)

/-- `types.type_to_string` (accepts `Union[type, str]`; a string is returned
unchanged). -/
def type_to_string (fuel : Nat) (reg : Registry) :
    StrOrType → Except PyExc (String × Registry)
  | .str s => .ok (s, reg)
  | .ty t => type_to_string_ty fuel reg t
  | .otherValue => .error (.typeNotFoundError "object")

/-- `ast.literal_eval` on one stripped `Literal[...]` item, modelled for the
literal forms these sources construct: int, quoted string (no embedded
quotes or escapes), bool and None. Anything else fails with `ValueError`,
as `ast.literal_eval` does for malformed input. -/
def pyLiteralEval (s : String) : Except PyExc PyLit :=
  let t := pyStrip s
  if t = "True" then .ok (.lb true)
  else if t = "False" then .ok (.lb false)
  else if t = "None" then .ok .lnone
  else
    match t.toList with
    | '\'' :: rest =>
      match rest.reverse with
      | '\'' :: revInner =>
        let inner := revInner.reverse
        if inner.contains '\'' then .error (.valueError "malformed string literal")
        else .ok (.ls (String.mk inner))
      | _ => .error (.valueError "malformed node")
    | '"' :: rest =>
      match rest.reverse with
      | '"' :: revInner =>
        let inner := revInner.reverse
        if inner.contains '"' then .error (.valueError "malformed string literal")
        else .ok (.ls (String.mk inner))
      | _ => .error (.valueError "malformed node")
    | _ =>
      match pyParseInt t with
      | some n => .ok (.li n)
      | none => .error (.valueError "malformed node")

/-- The regex `(\w+)\[(.*)\]$` of `string_to_type`: a leading word-character
run, an opening bracket, anything newline-free, a closing bracket at the end
of the (already stripped, hence newline-trailing-free) string. -/
def bracketMatch (s : String) : Option (String × String) :=
  let cs := s.toList
  let run := cs.takeWhile isWordChar
  let rest := cs.dropWhile isWordChar
  if run.isEmpty then none
  else
    match rest with
    | '[' :: rest2 =>
      match rest2.reverse with
      | ']' :: revContent =>
        let content := revContent.reverse
        if content.contains '\n' then none
        else some (String.mk run, String.mk content)
      | _ => none
    | _ => none

/-- `s.rsplit(".", 1)` when `"." in s`. -/
def rsplitDotOnce (s : String) : String × String :=
  let cs := s.toList
  let revSuffix := cs.reverse.takeWhile (fun c => c ≠ '.')
  (String.mk (cs.take (cs.length - revSuffix.length - 1)),
   String.mk revSuffix.reverse)

/-- `types.string_to_type`: type objects pass through; strings are stripped
(also of stray `.`/`,`), looked up, parsed as a one-level parameterized
generic (registering canonical rendering and input alias best-effort
afterwards), resolved as a dotted import path, or rescued through the
literal-word-`optional` fallback; otherwise `TypeNotFoundError`. -/
def string_to_type : Nat → Registry → StrOrType → Except PyExc (PyType × Registry)
  | 0, _, _ => .error .recursionError
  | _ + 1, reg, .ty t => .ok (t, reg)
  | _ + 1, _, .otherValue => .error (.typeError "Expected str")
  | fuel + 1, reg, .str s0 =>
    let s := pyStrip (pyStripChars ['.', ','] (pyStrip s0))
    match lookupName reg s with
    | some t => .ok (t, reg)
    | none =>
      let recurse : Registry → String → Except PyExc (PyType × Registry) :=
        fun r str => string_to_type fuel r (.str str)
      let handled : Except PyExc (PyType × Registry) :=
        match bracketMatch s with
        | some (mainType, content) =>
          let sub : Except PyExc (PyType × Registry) :=
            if mainType = "List" then
              match recurse reg content with
              | .error e => .error e
              | .ok (a, r) => .ok (.tList a, r)
            else if mainType = "Dict" then
              match (pySplit content ",").map pyStrip with
              | [k, v] =>
                match recurse reg k with
                | .error e => .error e
                | .ok (kt, r) =>
                  match recurse r v with
                  | .error e => .error e
                  | .ok (vt, r') => .ok (.tDict kt vt, r')
              | _ => .error (.valueError "unpacking mismatch")
            else if mainType = "Tuple" then
              match mapMState recurse reg (pySplit content ",") with
              | .error e => .error e
              | .ok (ts, r) => .ok (.tTuple (PyTypeList.ofList ts), r)
            else if mainType = "Union" then
              match mapMState recurse reg (pySplit content ",") with
              | .error e => .error e
              | .ok (ts, r) =>
                if 2 ≤ ts.length then .ok (unionOf ts, r)
                else
                  match ts with
                  | [t] => .ok (t, r)
                  | _ => .error .indexError
            else if mainType = "Optional" then
              match recurse reg content with
              | .error e => .error e
              | .ok (a, r) => .ok (optionalOf a, r)
            else if mainType = "Type" then
              match recurse reg content with
              | .error e => .error e
              | .ok (a, r) => .ok (.tType a, r)
            else if mainType = "Set" then
              match recurse reg content with
              | .error e => .error e
              | .ok (a, r) => .ok (.tSet a, r)
            else if mainType = "Literal" then
              let items := ((pySplit content ",").map pyStrip).filter
                (fun item => !item.isEmpty)
              let rec evalAll : List String → Except PyExc (List PyLit)
                | [] => .ok []
                | i :: rest =>
                  match pyLiteralEval (pyStrip i) with
                  | .error e => .error e
                  | .ok v =>
                    match evalAll rest with
                    | .error e => .error e
                    | .ok vs => .ok (v :: vs)
              match evalAll items with
              | .error e => .error e
              | .ok vs => .ok (.tLiteral vs, reg)
            else .error (.typeNotFoundError s)
          match sub with
          | .error e => .error e
          | .ok (t, r) =>
            match type_to_string_ty fuel r t with
            | .error e => .error e
            | .ok (backstring, r') =>
              let r2 := addTypeSwallow r' t backstring
              let r3 := addTypeSwallow r2 t s
              .ok (t, r3)
        | none => .error (.typeNotFoundError s)
      match bracketMatch s with
      | some _ => handled
      | none =>
        -- dotted import path; `importFailed` models a raised-and-caught
        -- `ImportError`, which only changes which exception text is chained
        -- onto the final `TypeNotFoundError`.
        let dotted : Option (PyType × Registry) :=
          if pyContains s "." then
            let (moduleName, className) := rsplitDotOnce s
            match (reg.modules.find? (fun p => p.1 = moduleName)).map Prod.snd with
            | some attrs =>
              match (attrs.find? (fun p => p.1 = className)).map Prod.snd with
              | some cls => some (cls, addTypeSwallow reg cls s)
              | none => none
            | none => none
          else none
        match dotted with
        | some (cls, r) => .ok (cls, r)
        | none =>
          if pyContains (pyLower s) "optional" then
            let stripped := pyReplace (pyReplace s "optional" "") "Optional" ""
            match string_to_type fuel reg (.str (pyStrip stripped)) with
            | .error e => .error e
            | .ok (t, r) => .ok (optionalOf t, r)
          else .error (.typeNotFoundError s)

/-! ## Calling a class on a value (`string_to_type(param["type"])(param["default"])`) -/

/-- Python `type_(value)` for the classes this code base applies to textual
defaults. Conversions not constructible by these sources (float parsing,
`tuple()`, `bytes()`, calling a typing generic — which raises `TypeError` in
Python as well) are modelled as `TypeError`. -/
def pyCall (t : PyType) (v : Val) : Except PyExc Val :=
  match t with
  | .atom "int" =>
    match v with
    | .vInt n => .ok (.vInt n)
    | .vBool b => .ok (.vInt (if b then 1 else 0))
    | .vStr s =>
      match pyParseInt s with
      | some n => .ok (.vInt n)
      | none => .error (.valueError ("invalid literal for int: " ++ s))
    | _ => .error (.typeError "int() argument")
  | .atom "str" =>
    match v with
    | .vStr s => .ok (.vStr s)
    | .vInt n => .ok (.vStr (toString n))
    | .vBool b => .ok (.vStr (if b then "True" else "False"))
    | .vNone => .ok (.vStr "None")
    | _ => .error (.typeError "container str() rendering not modelled")
  | .atom "bool" =>
    match v with
    | .vBool b => .ok (.vBool b)
    | .vInt n => .ok (.vBool (n ≠ 0))
    | .vStr s => .ok (.vBool (!s.isEmpty))
    | .vNone => .ok (.vBool false)
    | .vList l => .ok (.vBool (l ≠ .nil))
    | .vSet l => .ok (.vBool (l ≠ .nil))
    | .vDict d => .ok (.vBool (d ≠ .nil))
  | .atom "list" =>
    match v with
    | .vList l => .ok (.vList l)
    | .vSet l => .ok (.vList l)
    | .vStr _ => .error (.typeError "char-splitting list() not modelled")
    | _ => .error (.typeError "list() argument")
  | .atom "set" =>
    match v with
    | .vList l => .ok (.vSet l)
    | .vSet l => .ok (.vSet l)
    | _ => .error (.typeError "set() argument")
  | .atom "dict" =>
    match v with
    | .vDict d => .ok (.vDict d)
    | _ => .error (.typeError "dict() argument")
  | _ => .error (.typeError "object is not callable (modelled)")

/-! ## Docstring records (`DocstringParserResult` and its drafts)

The Python records are dicts with dynamically present keys; fields that a
parser may leave out are `Option`s here. The three list/dict-valued keys are
total because `_unify_parser_results` inserts empty defaults for them before
anything reads them, so "absent" and "empty" are indistinguishable. -/

/-- Draft/normalized input parameter (`FunctionInputParam`). -/
structure PInParam where
  name : String
  description : Option String := none
  type : Option StrOrType := none
  default : Option Val := none
  optional : Option Bool := none
  positional : Option Bool := none
deriving DecidableEq, Repr

/-- Draft/normalized output parameter (`FunctionOutputParam`). -/
structure POutParam where
  name : Option String := none
  type : Option StrOrType := none
  description : Option String := none
deriving DecidableEq, Repr

/-- `DocstringParserResult`. `exceptions` is an insertion-ordered dict. -/
structure DocstringParserResult where
  original : Option String := none
  summary : Option String := none
  input_params : List PInParam := []
  output_params : List POutParam := []
  exceptions : List (String × String) := []
deriving DecidableEq, Repr

/-- Python dict assignment `d[k] = v` preserving insertion order. -/
def dictSet (d : List (String × String)) (k v : String) : List (String × String) :=
  if (d.find? (fun p => p.1 = k)).isSome then
    d.map (fun p => if p.1 = k then (k, v) else p)
  else d ++ [(k, v)]

/-- Fuel used by the docstring layer for the codec calls it makes; it is far
larger than the recursion depth any docstring in this development
produces. -/
def FUEL_N : Nat := 1000

/-- The group alternatives of the `"defaults to"` regex in
`_unify_parser_results`, tried at the position right after a
`"defaults to "` occurrence. Returns the matched group (quotes included). -/
def defaultsToGroup (cs : List Char) : Option (List Char) :=
  match cs with
  | '`' :: rest =>
    let inner := rest.takeWhile (fun c => c ≠ '`')
    if !inner.isEmpty && (rest.drop inner.length).headD ' ' = '`' then
      some ('`' :: inner ++ ['`'])
    else none
  | '\'' :: rest =>
    let inner := rest.takeWhile (fun c => c ≠ '\'')
    if !inner.isEmpty && (rest.drop inner.length).headD ' ' = '\'' then
      some ('\'' :: inner ++ ['\''])
    else none
  | '"' :: rest =>
    let inner := rest.takeWhile (fun c => c ≠ '"')
    if !inner.isEmpty && (rest.drop inner.length).headD ' ' = '"' then
      some ('"' :: inner ++ ['"'])
    else none
  | other =>
    let run := other.takeWhile (fun c => !(pyIsSpace c || c = '.' || c = ','))
    if run.isEmpty then none else some run

/-- `re.search(r"defaults to (...)", description)`: leftmost occurrence of
`"defaults to "` at which one alternative matches; yields
(match start, match end, group). -/
def searchDefaultsTo : List Char → Nat → Option (Nat × Nat × List Char)
  | [], _ => none
  | c :: rest, pos =>
    let needle := "defaults to ".toList
    if needle.isPrefixOf (c :: rest) then
      match defaultsToGroup ((c :: rest).drop needle.length) with
      | some grp => some (pos, pos + needle.length + grp.length, grp)
      | none => searchDefaultsTo rest (pos + 1)
    else searchDefaultsTo rest (pos + 1)

/-- Strip one leading and one trailing character (`s[1:-1]`). -/
def dropQuotes (s : String) : String :=
  String.mk ((s.toList.drop 1).dropLast)

/-- The description clean-up chain of `_unify_parser_results`. -/
def cleanDescription (d : String) : String :=
  pyStrip (pyReplace (pyReplace (pyReplace (pyReplace (pyReplace d
    "  " " ") " ." ".") " ," ",") " :" ":") ",." ".")

/-- The tail of the input-parameter loop body: final description assignment,
`positional`/`optional` inference for parameters that lack the explicit
flags, and deletion of an empty description. -/
def finishInputParam (d2 : String) (p : PInParam) : PInParam :=
  let p := { p with description := some d2 }
  let posVal : Option Bool :=
    some (!(p.default.isSome || p.optional == some true))
  let p := if p.positional.isNone then { p with positional := posVal } else p
  let optVal : Option Bool :=
    some (p.default.isSome || p.positional == some false)
  let p := if p.optional.isNone then { p with optional := optVal } else p
  if d2.isEmpty then { p with description := none } else p

/-- Step 2 of the input-parameter loop body: `"defaults to X"` extraction
into a structured default and removal of the clause from the description
(`desc` is the already-stripped description). -/
def stepExtractDefault (desc : String) (p : PInParam) : PInParam :=
  if pyContains desc "defaults to" then
    match searchDefaultsTo desc.toList 0 with
    | some (st, en, grp) =>
      let description := String.mk (desc.toList.take st ++ desc.toList.drop en)
      let defaultVal :=
        if ['`', '\'', '"'].contains (grp.headD ' ') then
          String.mk ((grp.drop 1).dropLast)
        else String.mk grp
      let p :=
        if p.default.isNone then { p with default := some (.vStr defaultVal) }
        else p
      { p with description := some (pyStrip description) }
    | none => p
  else p

/-- Step 3: quote stripping on a string-valued default. -/
def stepDequote (p : PInParam) : PInParam :=
  match p.default with
  | some (.vStr d) =>
    if ['`', '\'', '"'].contains (d.toList.headD ' ') then
      { p with default := some (.vStr (dropQuotes d)) }
    else p
  | _ => p

/-- Steps 1–3 of the input-parameter loop body: description strip,
`"defaults to X"` extraction into a structured default, and quote stripping
on a string-valued default. -/
def stepDefaultsTo (d0 : String) (p : PInParam) : PInParam :=
  stepDequote
    (stepExtractDefault (pyStrip d0) { p with description := some (pyStrip d0) })

/-- Step 4: coercion of the default through the declared type
(`string_to_type(param["type"])(param["default"])`). -/
def stepCoerce (reg : Registry) (p : PInParam) :
    Except PyExc (PInParam × Registry) :=
  match p.default, p.type with
  | some dv, some ty =>
    match string_to_type FUEL_N reg ty with
    | .error e => .error e
    | .ok (cls, reg') =>
      match pyCall cls dv with
      | .error e => .error e
      | .ok v' => .ok ({ p with default := some v' }, reg')
  | _, _ => .ok (p, reg)

/-- Step 5: collapse of the type to its canonical textual form. -/
def stepTypeCollapse (reg : Registry) (p : PInParam) :
    Except PyExc (PInParam × Registry) :=
  match p.type with
  | some ty =>
    match type_to_string FUEL_N reg ty with
    | .error e => .error e
    | .ok (s, reg') => .ok ({ p with type := some (.str s) }, reg')
  | none => .ok (p, reg)

/-- The body of the input-parameter loop of `_unify_parser_results`,
executed once per draft parameter. -/
def processInputParam (reg : Registry) (p : PInParam) :
    Except PyExc (PInParam × Registry) :=
  match p.description with
  | none => .error (.keyError "description")
  | some d0 =>
    match stepCoerce reg (stepDefaultsTo d0 p) with
    | .error e => .error e
    | .ok (p4, reg4) =>
      match stepTypeCollapse reg4 p4 with
      | .error e => .error e
      | .ok (p5, reg5) =>
        let d1 := cleanDescription ((p5.description).getD "")
        let d2 := if !d1.isEmpty && !pyEndsWith d1 "." then d1 ++ "." else d1
        .ok (finishInputParam d2 p5, reg5)

/-- First output-parameter loop of `_unify_parser_results`: default names
(`out`, or `out0`/`out1`/… when several) and textual type collapse. -/
def processOutputParam (total : Nat) (reg : Registry) (iop : Nat × POutParam) :
    Except PyExc (POutParam × Registry) :=
  let (i, op) := iop
  let op :=
    if op.name.isNone then
      { op with name := some (if 1 < total then "out" ++ toString i else "out") }
    else op
  match op.type with
  | some ty =>
    match type_to_string FUEL_N reg ty with
    | .error e => .error e
    | .ok (s, reg') => .ok ({ op with type := some (.str s) }, reg')
  | none => .ok (op, reg)

/-- Second output-parameter loop: description strip-or-delete (reading a
missing description raises `KeyError`, as in the source). -/
def stripOutputDescription (reg : Registry) (op : POutParam) :
    Except PyExc (POutParam × Registry) :=
  match op.description with
  | none => .error (.keyError "description")
  | some d =>
    let d' := pyStrip d
    .ok ({ op with description := if d'.isEmpty then none else some d' }, reg)

/-- `result["summary"] = result["summary"].strip()` guarded by key
presence. -/
def stripSummary (r : DocstringParserResult) : DocstringParserResult :=
  match r.summary with
  | some s => { r with summary := some (pyStrip s) }
  | none => r

/-- `docstring_parser._unify_parser_results`: the Normalizer applied to
every draft record (the `print`/`pprint` side effects of the source are
no-ops here). -/
def _unify_parser_results (reg : Registry) (result : DocstringParserResult)
    (docstring : String) : Except PyExc (DocstringParserResult × Registry) :=
  let result := stripSummary { result with original := some docstring }
  match mapMState processInputParam reg result.input_params with
  | .error e => .error e
  | .ok (ips, reg1) =>
    match mapMState (processOutputParam result.output_params.length) reg1
        (withIndex result.output_params) with
    | .error e => .error e
    | .ok (ops, reg2) =>
      let excs := result.exceptions.map (fun p => (p.1, pyStrip p.2))
      match mapMState stripOutputDescription reg2 ops with
      | .error e => .error e
      | .ok (ops2, reg3) =>
        let result := { result with
          input_params := ips, output_params := ops2, exceptions := excs }
        .ok (stripSummary result, reg3)

/-! ## `parse_restructured_docstring` -/

/-- The regex `([\w_]+):(.+)` anchored at the start (`re.match`): a
nonempty word run, a colon, and a nonempty remainder (the inputs reaching
it are single sections with no newline, so `.+` is the whole remainder). -/
def nameColonRest (s : String) : Option (String × String) :=
  let cs := s.toList
  let run := cs.takeWhile isWordChar
  let rest := cs.dropWhile isWordChar
  if run.isEmpty then none
  else
    match rest with
    | ':' :: tail => if tail.isEmpty then none else some (String.mk run, String.mk tail)
    | _ => none

/-- Whether `re.match(r"([\w_]+)", s)` succeeds (used only to pick between
`IndexError` and `ValueError` on a `:param` section with no colon). -/
def startsWithWordChar (s : String) : Bool :=
  match s.toList with
  | [] => false
  | c :: _ => isWordChar c

/-- Section grouping of `parse_restructured_docstring`: a new group starts
at every line beginning with `:` (except when the current group is empty). -/
def groupSections (lines : List String) : List (List String) :=
  let step := fun (acc : List (List String) × List String) (line : String) =>
    let (done, current) := acc
    if pyStartsWith line ":" && !current.isEmpty then
      (done ++ [current], [line])
    else (done, current ++ [line])
  let (done, current) := lines.foldl step ([], [])
  if current.isEmpty then done else done ++ [current]

/-- Python `s.split(sep, 1)` when the separator occurs. -/
def splitOnceAt (s sep : String) : Option (String × String) :=
  match findSubL sep.toList s.toList with
  | none => none
  | some i =>
    some (String.mk (s.toList.take i), String.mk (s.toList.drop (i + sep.toList.length)))

/-- One section of the `parse_restructured_docstring` dispatch loop. -/
def processRstSection (reg : Registry) (result : DocstringParserResult)
    (sec : String) : Except PyExc (DocstringParserResult × Registry) :=
  if pyStartsWith sec ":summary:" then
    let s := pyStrip (pyReplace sec ":summary:" "")
    if s.isEmpty then .ok (result, reg)
    else .ok ({ result with summary := some s }, reg)
  else if pyStartsWith sec ":param" then
    let psection := pyStrip (pyReplace sec ":param" "")
    match nameColonRest psection with
    | none =>
      if startsWithWordChar psection then .error .indexError
      else .error (.valueError "Could not parse line as parameter")
    | some (name, rest) =>
      let p : PInParam := { name := name, description := some (pyStrip rest),
                            optional := some false }
      let descr := pyStrip rest
      if pyContains descr "defaults to" then
        match pySplit descr "defaults to" with
        | [d, df] =>
          let p := { p with description := some (pyStripChars [' ', ','] d),
                            default := some (.vStr (pyStrip df)) }
          .ok ({ result with input_params := result.input_params ++ [p] }, reg)
        | _ => .error (.valueError "unpacking mismatch")
      else .ok ({ result with input_params := result.input_params ++ [p] }, reg)
  else if pyStartsWith sec ":type" then
    if result.input_params.isEmpty then
      .error (.valueError "Type section without parameter")
    else
      let psection := pyStrip (pyReplace sec ":type" "")
      let target : Option (Nat × String) :=
        match splitOnceAt psection ":" with
        | some (before, after) =>
          match result.input_params.findIdx? (fun p => p.name = pyStrip before) with
          | some i => some (i, after)
          | none => none
        | none => some (result.input_params.length - 1, psection)
      match target with
      | none => .error (.valueError "Could not find parameter for type section")
      | some (i, typeRaw) =>
        let t0 := pyStrip typeRaw
        let annOpt : Except PyExc (String × Bool) :=
          if pyContains t0 "optional" then
            match pySplit t0 ", optional" with
            | [ann, _] => .ok (pyStrip ann, true)
            | _ => .error (.valueError "unpacking mismatch")
          else .ok (t0, false)
        match annOpt with
        | .error e => .error e
        | .ok (ann, opt) =>
          match string_to_type FUEL_N reg (.str ann) with
          | .error e => .error e
          | .ok (cls, reg') =>
            match result.input_params.get? i with
            | none => .error .indexError
            | some p0 =>
              let p := { p0 with type := some (.ty cls), optional := some opt }
              .ok ({ result with input_params := result.input_params.set i p }, reg')
  else if pyStartsWith sec ":raises" then
    let rsection := pyStrip (pyReplace sec ":raises" "")
    match nameColonRest rsection with
    | none => .error (.valueError "Could not parse line as raise")
    | some (name, rest) =>
      .ok ({ result with exceptions := dictSet result.exceptions name (pyStrip rest) },
           reg)
  else if pyStartsWith sec ":return" then
    let rsection := pyStrip (pyReplace sec ":return:" "")
    .ok ({ result with
           output_params := result.output_params ++ [{ description := some rsection }] },
         reg)
  else if pyStartsWith sec ":rtype" then
    if result.output_params.isEmpty then
      .error (.valueError "Type section without return")
    else
      let rsection := pyStrip (pyReplace sec ":rtype:" "")
      match string_to_type FUEL_N reg (.str rsection) with
      | .error e => .error e
      | .ok (cls, reg') =>
        match result.output_params.get? 0 with
        | none => .error .indexError
        | some op0 =>
          let op := { op0 with type := some (.ty cls) }
          .ok ({ result with output_params := result.output_params.set 0 op }, reg')
  else .ok (result, reg)

/-- Fold of `processRstSection` over the section list. -/
def processRstSections (reg : Registry) (result : DocstringParserResult) :
    List String → Except PyExc (DocstringParserResult × Registry)
  | [] => .ok (result, reg)
  | sec :: rest =>
    match processRstSection reg result sec with
    | .error e => .error e
    | .ok (result', reg') => processRstSections reg' result' rest

/-- `docstring_parser.parse_restructured_docstring`. -/
def parse_restructured_docstring (reg : Registry) (docstring : String) :
    Except PyExc (DocstringParserResult × Registry) :=
  let original := docstring
  let withSummary := ":summary:\n" ++ docstring
  let lines := ((pyLines (pyStrip withSummary)).map pyStrip).filter
    (fun l => !l.isEmpty)
  let sections := (groupSections lines).map (pyJoin " ")
  match processRstSections reg {} sections with
  | .error e => .error e
  | .ok (result, reg') => _unify_parser_results reg' result original

/-! ## `parse_google_docstring` -/

/-- Characters of the type-clause class `[\w\[\], ]` in the Google-style
regexes. -/
def isGoogleTypeChar (c : Char) : Bool :=
  isWordChar c || c = '[' || c = ']' || c = ',' || c = ' '

/-- `re.match(r"(\w+) \(([\w\[\], ]+)\): (.+)", line)`. -/
def googleMatchFull (line : String) : Option (String × String × String) :=
  let cs := line.toList
  let run := cs.takeWhile isWordChar
  let rest := cs.dropWhile isWordChar
  if run.isEmpty then none
  else
    match rest with
    | ' ' :: '(' :: rest2 =>
      let ty := rest2.takeWhile isGoogleTypeChar
      let rest3 := rest2.dropWhile isGoogleTypeChar
      if ty.isEmpty then none
      else
        match rest3 with
        | ')' :: ':' :: ' ' :: tail =>
          if tail.isEmpty then none
          else some (String.mk run, String.mk ty, String.mk tail)
        | _ => none
    | _ => none

/-- `re.match(r"(\w+) \(([\w\[\], ]+)\)", line)` (prefix, rest ignored). -/
def googleMatchType (line : String) : Option (String × String) :=
  let cs := line.toList
  let run := cs.takeWhile isWordChar
  let rest := cs.dropWhile isWordChar
  if run.isEmpty then none
  else
    match rest with
    | ' ' :: '(' :: rest2 =>
      let ty := rest2.takeWhile isGoogleTypeChar
      let rest3 := rest2.dropWhile isGoogleTypeChar
      if ty.isEmpty then none
      else
        match rest3 with
        | ')' :: _ => some (String.mk run, String.mk ty)
        | _ => none
    | _ => none

/-- `re.match(r"(\w+): (.+)", line)`. -/
def googleMatchDesc (line : String) : Option (String × String) :=
  let cs := line.toList
  let run := cs.takeWhile isWordChar
  let rest := cs.dropWhile isWordChar
  if run.isEmpty then none
  else
    match rest with
    | ':' :: ' ' :: tail =>
      if tail.isEmpty then none else some (String.mk run, String.mk tail)
    | _ => none

/-- `re.match(r"([\w\[\], ]+): (.+)", line)` (the `Returns:` entry shape). -/
def googleMatchReturn (line : String) : Option (String × String) :=
  let cs := line.toList
  let run := cs.takeWhile isGoogleTypeChar
  let rest := cs.dropWhile isGoogleTypeChar
  if run.isEmpty then none
  else
    match rest with
    | ':' :: ' ' :: tail =>
      if tail.isEmpty then none else some (String.mk run, String.mk tail)
    | _ => none

/-- Where `last_param` points: a draft dict held (aliased) inside one of the
two result lists. `none` models the initial Python `None`. -/
inductive LastRef where
  | inputIdx (i : Nat)
  | outputIdx (i : Nat)
deriving DecidableEq, Repr

/-- Loop state of `parse_google_docstring`. -/
structure GoogleState where
  result : DocstringParserResult
  sect : String
  lastRef : Option LastRef
  lastException : Option String
deriving Repr

/-- `last_param["description"] += " " + line` through the alias. A missing
target models Python's `TypeError`/`KeyError` on the same access. -/
def appendToLastDescription (st : GoogleState) (line : String) :
    Except PyExc GoogleState :=
  match st.lastRef with
  | none => .error (.typeError "NoneType is not subscriptable")
  | some (.inputIdx i) =>
    match st.result.input_params.get? i with
    | none => .error .indexError
    | some p =>
      match p.description with
      | none => .error (.keyError "description")
      | some d =>
        let p' := { p with description := some (d ++ " " ++ line) }
        .ok { st with result :=
          { st.result with input_params := st.result.input_params.set i p' } }
  | some (.outputIdx i) =>
    match st.result.output_params.get? i with
    | none => .error .indexError
    | some op =>
      match op.description with
      | none => .error (.keyError "description")
      | some d =>
        let op' := { op with description := some (d ++ " " ++ line) }
        .ok { st with result :=
          { st.result with output_params := st.result.output_params.set i op' } }

/-- One line of the `parse_google_docstring` loop. -/
def processGoogleLine (reg : Registry) (st : GoogleState) (line : String) :
    Except PyExc (GoogleState × Registry) :=
  if pyStartsWith line "Args:" then .ok ({ st with sect := "Args" }, reg)
  else if pyStartsWith line "Returns:" then .ok ({ st with sect := "Returns" }, reg)
  else if pyStartsWith line "Raises:" then .ok ({ st with sect := "Raises" }, reg)
  else
    let st :=
      if st.sect = "Sum" then
        match st.result.summary with
        | some s =>
          { st with result := { st.result with summary := some (s ++ " " ++ line) } }
        | none => { st with result := { st.result with summary := some line } }
      else st
    if st.sect = "Args" then
      match googleMatchFull line, googleMatchType line, googleMatchDesc line with
      | some (name, typeOpt, description), _, _ =>
        processGoogleParam reg st name (some typeOpt) description
      | none, some (name, typeOpt), _ =>
        processGoogleParam reg st name (some typeOpt) ""
      | none, none, some (name, description) =>
        processGoogleParam reg st name none description
      | none, none, none =>
        match appendToLastDescription st line with
        | .error e => .error e
        | .ok st' => .ok (st', reg)
    else if st.sect = "Returns" then
      match googleMatchReturn line with
      | some (tyStr, description) =>
        match string_to_type FUEL_N reg (.str tyStr) with
        | .error e => .error e
        | .ok (cls, reg') =>
          let op : POutParam := { type := some (.ty cls), description := some description }
          let i := st.result.output_params.length
          .ok ({ st with
                 result := { st.result with
                   output_params := st.result.output_params ++ [op] }
                 lastRef := some (.outputIdx i) }, reg')
      | none =>
        if st.lastRef.isSome then
          match appendToLastDescription st line with
          | .error e => .error e
          | .ok st' => .ok (st', reg)
        else .ok (st, reg)
    else if st.sect = "Raises" then
      match googleMatchDesc line with
      | some (name, description) =>
        .ok ({ st with
               result := { st.result with
                 exceptions := dictSet st.result.exceptions name (pyStrip description) }
               lastException := some name }, reg)
      | none =>
        match st.lastException with
        | none => .error .nameError
        | some k =>
          match st.result.exceptions.find? (fun p => p.1 = k) with
          | some (_, v) =>
            .ok ({ st with
                   result := { st.result with
                     exceptions := dictSet st.result.exceptions k (v ++ " " ++ line) } },
                 reg)
          | none => .ok (st, reg)
    else .ok (st, reg)
where
  /-- The shared tail of the three `Args:` match arms: optional-flag
  handling, type resolution, parameter append, `last_param` update. -/
  processGoogleParam (reg : Registry) (st : GoogleState) (name : String)
      (typeOpt : Option String) (description : String) :
      Except PyExc (GoogleState × Registry) :=
    let (optionalFlag, tyName) :=
      match typeOpt with
      | some topt =>
        if pyContains topt "optional" then
          let parts := pySplit topt ","
          if 1 < parts.length then (true, some (parts.headD ""))
          else (true, none)
        else (false, some topt)
      | none => (false, none)
    let resolved : Except PyExc (Option StrOrType × Registry) :=
      match tyName with
      | some t =>
        if t.isEmpty then .ok (none, reg)
        else
          match string_to_type FUEL_N reg (.str t) with
          | .error e => .error e
          | .ok (cls, reg') => .ok (some (.ty cls), reg')
      | none => .ok (none, reg)
    match resolved with
    | .error e => .error e
    | .ok (ty, reg') =>
      let p : PInParam := { name := name, description := some description,
                            optional := some optionalFlag, type := ty }
      let i := st.result.input_params.length
      .ok ({ st with
             result := { st.result with
               input_params := st.result.input_params ++ [p] }
             lastRef := some (.inputIdx i) }, reg')

/-- Fold of `processGoogleLine` over the line list. -/
def processGoogleLines (reg : Registry) (st : GoogleState) :
    List String → Except PyExc (GoogleState × Registry)
  | [] => .ok (st, reg)
  | line :: rest =>
    match processGoogleLine reg st line with
    | .error e => .error e
    | .ok (st', reg') => processGoogleLines reg' st' rest

/-- `docstring_parser.parse_google_docstring`. -/
def parse_google_docstring (reg : Registry) (docstring : String) :
    Except PyExc (DocstringParserResult × Registry) :=
  let lines := (pyLines (pyStrip docstring)).map pyStrip
  let st0 : GoogleState :=
    { result := {}, sect := "Sum", lastRef := none, lastException := none }
  match processGoogleLines reg st0 lines with
  | .error e => .error e
  | .ok (st, reg') => _unify_parser_results reg' st.result docstring

/-! ## `select_extraction_function` and `parse_docstring` -/

/-- The docstring dialect the selector can pick. The source module defines
only these two parsers (there is no scientific/numpy parser in
`docstring_parser.py`). -/
inductive ParserTag where
  | restructured
  | google
deriving DecidableEq, Repr

/-- `.*\):` after the opening parenthesis: an adjacent `):` occurring before
the next newline. -/
def hasParenColonBeforeNewline : List Char → Bool
  | [] => false
  | '\n' :: _ => false
  | ')' :: ':' :: _ => true
  | _ :: rest => hasParenColonBeforeNewline rest

/-- Attempt of `^\s*([a-zA-Z_]\w*)\s?\(.*\):` at one line-start position
(leading `\s*` may legitimately cross newlines; every crossed position is
itself a line start, so scanning all line starts preserves existence). -/
def googleTypesProbe (cs : List Char) : Bool :=
  let afterWs := cs.dropWhile pyIsSpace
  match afterWs with
  | c :: rest =>
    if c.isAlpha || c = '_' then
      let afterIdent := rest.dropWhile isWordChar
      match afterIdent with
      | '(' :: tail => hasParenColonBeforeNewline tail
      | d :: '(' :: tail => pyIsSpace d && hasParenColonBeforeNewline tail
      | _ => false
    else false
  | [] => false

/-- Attempt of `^\s*([a-zA-Z_]\w*):` at one line-start position. -/
def googleNoTypesProbe (cs : List Char) : Bool :=
  let afterWs := cs.dropWhile pyIsSpace
  match afterWs with
  | c :: rest =>
    if c.isAlpha || c = '_' then
      match rest.dropWhile isWordChar with
      | ':' :: _ => true
      | _ => false
    else false
  | [] => false

/-- `re.search(pattern, s, re.MULTILINE)` for the `^`-anchored Google
patterns: try the probe at position 0 and after every newline. -/
def searchMultiline (probe : List Char → Bool) (s : String) : Bool :=
  let rec go : List Char → Bool
    | [] => false
    | '\n' :: rest => probe rest || go rest
    | _ :: rest => go rest
  probe s.toList || go s.toList

/-- `docstring_parser.select_extraction_function`. -/
def select_extraction_function (docstring : String) : Option ParserTag :=
  if pyContains docstring ":param" then some .restructured
  else if pyContains docstring ":raises" then some .restructured
  else if pyContains docstring ":return" then some .restructured
  else if searchMultiline googleTypesProbe docstring then some .google
  else if searchMultiline googleNoTypesProbe docstring then some .google
  else none

/-- `docstring_parser.parse_docstring`: selector, chosen parser, and a
second Normalizer pass over the parser's (already unified) record; with no
match, a summary-only record is normalized. -/
def parse_docstring (reg : Registry) (docstring : String) :
    Except PyExc (DocstringParserResult × Registry) :=
  match select_extraction_function docstring with
  | none => _unify_parser_results reg { summary := some docstring } docstring
  | some .restructured =>
    match parse_restructured_docstring reg docstring with
    | .error e => .error e
    | .ok (res, reg') => _unify_parser_results reg' res docstring
  | some .google =>
    match parse_google_docstring reg docstring with
    | .error e => .error e
    | .ok (res, reg') => _unify_parser_results reg' res docstring

/-! ## Signature Resolver and Merge Engine (spec-modelled)

`get_resolved_signature` and `function_method_parse` live in
`exposedfunctionality/function_parser/__init__.py`, which is not among the
provided sources (only its tests and callers are); the definitions in this
section are therefore modelled from the specification's §4.2 and §4.6. -/

/-- A parameter of a callable's declared signature: name, rendered type
annotation (textual canonical form), and default value. -/
structure SigParam where
  name : String
  annot : Option String := none
  default : Option Val := none
deriving DecidableEq, Repr

/-- Modelled from the spec: a callable as seen by the Signature Resolver —
either a plain function with its declared parameter list, or a
partial-application wrapper (`functools.partial`) supplying positional and
keyword arguments to an inner callable. -/
inductive PyCallable where
  | base (params : List SigParam)
  | bound (f : PyCallable) (args : List Val) (kwargs : List (String × Val))
deriving DecidableEq, Repr

/-- Python dict merge `{**a, **b}`: entries of `a` (updated by `b` where
keys collide) followed by `b`'s new keys in order. -/
def mergeKw (a b : List (String × Val)) : List (String × Val) :=
  a.map (fun p => match b.find? (fun q => q.1 = p.1) with
                  | some q => q
                  | none => p)
  ++ b.filter (fun q => (a.find? (fun p => p.1 = q.1)).isNone)

/-- Modelled from the spec: transitive unwrapping of nested
partial-application layers, accumulating all previously supplied positional
arguments (inner layers first, matching call order) and keyword arguments
(outer layers override inner). -/
def collectBound : PyCallable → List SigParam × List Val × List (String × Val)
  | .base ps => (ps, [], [])
  | .bound f args kwargs =>
    let (ps, args0, kw0) := collectBound f
    (ps, args0 ++ args, mergeKw kw0 kwargs)

/-- Modelled from the spec: `get_resolved_signature` (absent from the
provided sources). Returns the visible parameter list — the declared
parameters with every positionally- or keyword-fixed parameter folded out,
remaining parameters keeping declaration order and original defaults — and
the bound-value map recording the value each folded-out parameter was fixed
to (the supplied values the spec describes as propagated "new defaults" for
the parameters they fix). -/
def get_resolved_signature (f : PyCallable) :
    List SigParam × List (String × Val) :=
  let (ps, args, kwargs) := collectBound f
  let bound :=
    ((ps.take args.length).zip args).map (fun pv => (pv.1.name, pv.2)) ++ kwargs
  let visible :=
    (ps.drop args.length).filter
      (fun p => (kwargs.find? (fun q => q.1 = p.name)).isNone)
  (visible, bound)

/-- The terminal artifact `SerializedFunction`. -/
structure SerializedFunction where
  name : String
  input_params : List PInParam
  output_params : List POutParam
  docstring : Option DocstringParserResult := none
deriving DecidableEq, Repr

/-- A callable declaration as consumed by the Merge Engine: name, effective
signature, rendered return annotation, and the parsed docstring record (if
any). -/
structure FuncDecl where
  name : String
  params : List SigParam
  returnAnnot : Option String := none
  docstring : Option DocstringParserResult := none
deriving DecidableEq, Repr

/- Modelled from the spec: whether a default value can be represented in
the serialized form — a primitive literal, or a list/dict of representable
values; a set has no serialized form (the spec's unserializable-default
scenario). -/
mutual
/-- Modelled from the spec: representability of a default value in the
serialized form (primitive literals and list/dict containers of such;
sets are unrepresentable). -/
def representable : Val → Bool
  | .vInt _ => true
  | .vStr _ => true
  | .vBool _ => true
  | .vNone => true
  | .vList xs => representableL xs
  | .vSet _ => false
  | .vDict d => representableP d

def representableL : ValList → Bool
  | .nil => true
  | .cons h t => representable h && representableL t

def representableP : ValPairList → Bool
  | .nil => true
  | .cons k v t => representable k && representable v && representableP t
end

/-- The docstring entry matching a signature parameter by name. -/
def docParamFor (doc : Option DocstringParserResult) (name : String) :
    Option PInParam :=
  doc.bind (fun d => d.input_params.find? (fun q => q.name = name))

/-- Modelled from the spec: the effective default the Merge Engine stores —
the signature's own default is authoritative, a docstring-derived default
only fills one the signature does not express. -/
def mergedDefault (doc : Option DocstringParserResult) (p : SigParam) :
    Option Val :=
  p.default <|> (docParamFor doc p.name).bind (fun q => q.default)

/-- Modelled from the spec: the Merge Engine's treatment of one signature
parameter. The signature's annotation is authoritative for the stored type;
the docstring's (textual, post-normalization) type is only a fallback, and
`"Any"` stands in when neither side declares one. An unrepresentable
effective default fails with `FunctionParamError` naming the parameter. -/
def mergeInputParam (doc : Option DocstringParserResult) (p : SigParam) :
    Except PyExc PInParam :=
  let docP := docParamFor doc p.name
  let docTy : Option String :=
    match docP.bind (fun q => q.type) with
    | some (.str s) => some s
    | _ => none
  let ty := (p.annot.orElse (fun _ => docTy)).getD "Any"
  let dflt := mergedDefault doc p
  match dflt with
  | some v =>
    if representable v then
      .ok { name := p.name, type := some (.str ty), default := some v,
            positional := some false, optional := some true,
            description := docP.bind (fun q => q.description) }
    else .error (.functionParamError p.name)
  | none =>
    .ok { name := p.name, type := some (.str ty),
          positional := some true, optional := some false,
          description := docP.bind (fun q => q.description) }

/-- Stateless `Except` map used by the Merge Engine. -/
def mapMExc {α β : Type} (f : α → Except PyExc β) :
    List α → Except PyExc (List β)
  | [] => .ok []
  | a :: rest =>
    match f a with
    | .error e => .error e
    | .ok b =>
      match mapMExc f rest with
      | .error e => .error e
      | .ok bs => .ok (b :: bs)

/-- Top-level comma split that respects square-bracket nesting (used for the
tuple-return fan-out). -/
def splitTopCommas : List Char → Nat → List Char → List (List Char)
  | [], _, acc => [acc.reverse]
  | c :: rest, depth, acc =>
    if c = '[' then splitTopCommas rest (depth + 1) (acc.cons c)
    else if c = ']' then splitTopCommas rest (depth - 1) (acc.cons c)
    else if c = ',' && depth = 0 then acc.reverse :: splitTopCommas rest 0 []
    else splitTopCommas rest depth (acc.cons c)

/-- Modelled from the spec: output synthesis — docstring outputs win; else a
non-null return annotation yields one entry (or one per component of a
fixed-tuple annotation, named `out0`, `out1`, …); a `None` annotation (or
none at all) yields no outputs. -/
def synthesizeOutputs (doc : Option DocstringParserResult)
    (returnAnnot : Option String) : List POutParam :=
  let docOuts := (doc.map (fun d => d.output_params)).getD []
  if !docOuts.isEmpty then docOuts
  else
    match returnAnnot with
    | none => []
    | some ann =>
      if ann = "None" then []
      else
        match bracketMatch ann with
        | some (mainType, content) =>
          if mainType = "Tuple" then
            let comps := (splitTopCommas content.toList 0 []).map
              (fun cs => pyStrip (String.mk cs))
            (withIndex comps).map (fun ic =>
              { name := some ("out" ++ toString ic.1), type := some (.str ic.2) })
          else [{ name := some "out", type := some (.str ann) }]
        | none => [{ name := some "out", type := some (.str ann) }]

/-- Modelled from the spec: `function_method_parse` (absent from the
provided sources) — merges the effective signature with the parsed
docstring record into a `SerializedFunction`, storing the docstring record
itself untouched. -/
def function_method_parse (decl : FuncDecl) :
    Except PyExc SerializedFunction :=
  match mapMExc (mergeInputParam decl.docstring) decl.params with
  | .error e => .error e
  | .ok ips =>
    .ok { name := decl.name, input_params := ips,
          output_params := synthesizeOutputs decl.docstring decl.returnAnnot,
          docstring := decl.docstring }

/-! ## Definitions supporting the claim theorems -/

/-- Removal of trailing characters satisfying `p`. -/
def dropWhileRight (p : Char → Bool) (l : List Char) : List Char :=
  (l.reverse.dropWhile p).reverse

/-- The distinct type identities seeded into the registry at module load
(first-registered canonical names, in seeding order). -/
def seededPrimitives : List PyType :=
  [.atom "int", .atom "float", .atom "str", .atom "list", .atom "dict",
   .atom "tuple", .atom "set", .atom "bool", .atom "bytes", .atom "bytearray",
   .atom "complex", .atom "frozenset", .atom "memoryview", .atom "range",
   .atom "slice", .atom "type", .atom "Any", .atom "Optional", .atom "Union",
   .atom "Type", .atom "Literal", .atom "None"]

/-- Ordinary classes used as arguments of the composite shapes below. -/
def shapeArgPool : List PyType :=
  [.atom "int", .atom "float", .atom "str", .atom "bool", .atom "bytes",
   .atom "list", .atom "dict", .atom "tuple", .atom "set", .atom "None"]

/-- `string_to_type(type_to_string(x)) == x`, run from the freshly seeded
registry (the codec round-trip of §4.1/§8). -/
def roundTripsToSelf (t : PyType) : Bool :=
  match type_to_string_ty 50 initialRegistry t with
  | .ok (s, r) =>
    match string_to_type 50 r (.str s) with
    | .ok (t', _) => t' == t
    | .error _ => false
  | .error _ => false

/-- Every supported one-level composite shape (`List`, `Set`, `Type`,
`Optional`, `Dict`, `Tuple`, `Union`, `Literal`) over the argument pool,
plus the nested sequence shapes the repository's own tests exercise. The
`Dict`/`Tuple`/`Union` argument split is not bracket-aware in the source
(spec §4.1 says so explicitly), so deeper nesting under those three heads is
outside the supported shapes. -/
def oneLevelShapes : List PyType :=
  (shapeArgPool.map PyType.tList) ++ (shapeArgPool.map PyType.tSet) ++
  (shapeArgPool.map PyType.tType) ++ (shapeArgPool.map optionalOf) ++
  (shapeArgPool.flatMap fun a => shapeArgPool.map fun b => PyType.tDict a b) ++
  (shapeArgPool.flatMap fun a =>
    shapeArgPool.map fun b => PyType.tTuple (.cons a (.cons b .nil))) ++
  (shapeArgPool.flatMap fun a => shapeArgPool.map fun b => unionOf [a, b]) ++
  [.tLiteral [.li 1, .li 2, .ls "hello"], .tLiteral [.lb true, .lnone],
   .tLiteral [.li 1], .tList (.tList (.atom "int")),
   .tList (unionOf [.atom "int", .atom "str"])]

/-- Textual names whose repeated render is checked for stability: all seeded
canonical names, one textual form per composite shape (including the exact
strings of the repository's tests), the extra aliases, and a
non-canonically-spaced alias. -/
def stableStrings : List String :=
  ["int", "float", "str", "list", "dict", "tuple", "set", "bool", "bytes",
   "bytearray", "complex", "frozenset", "memoryview", "range", "slice",
   "type", "Any", "Optional", "Union", "Type", "Literal", "None",
   "List[int]", "Dict[int, str]", "Tuple[int, str]", "Tuple[int,int]",
   "Union[int, str]", "Union[int, None]", "Optional[int]", "Set[float]",
   "Type[int]", "Literal[1,2,'hello']", "List[List[int]]",
   "List[Union[int, str]]", "integer", "number", "List[ int ]"]

/-- One `string_to_type`/`type_to_string` cycle, twice: checks the second
cycle returns the same identity and the same text and leaves the registry
unchanged (so by `renderLoop_const` every further cycle repeats them). -/
def stableCheck (s : String) : Bool :=
  match string_to_type 50 initialRegistry (.str s) with
  | .error _ => false
  | .ok (t1, r1) =>
    match type_to_string_ty 50 r1 t1 with
    | .error _ => false
    | .ok (o1, r2) =>
      match string_to_type 50 r2 (.str s) with
      | .error _ => false
      | .ok (t2, r3) =>
        match type_to_string_ty 50 r3 t2 with
        | .error _ => false
        | .ok (o2, r4) => t2 == t1 && o2 == o1 && r3 == r2 && r4 == r2

/-- The outputs of `n` successive resolve-then-render cycles of the codec
starting from `reg`. -/
def renderLoop (reg : Registry) (s : String) : Nat → List String
  | 0 => []
  | n + 1 =>
    match string_to_type 50 reg (.str s) with
    | .ok (t, r) =>
      match type_to_string_ty 50 r t with
      | .ok (o, r') => o :: renderLoop r' s n
      | .error _ => []
    | .error _ => []

/-- The registry after the first resolution of `"List[int]"` from the
seeded registry. -/
def regListInt : Registry :=
  { initialRegistry with
    typeGetter :=
      initialRegistry.typeGetter ++ [("List[int]", .tList (.atom "int"))]
    stringGetter :=
      initialRegistry.stringGetter ++ [(.tList (.atom "int"), "List[int]")] }

/-- The spec's structured-field scenario docstring (C3). -/
def basicRstDocstring : String :=
  ":param a: The first parameter, defaults to '1'\n:type a: int, optional\n:param b: The second parameter\n:type b: str\n:raises ValueError: When something is wrong.\n:return: A string representation.\n:rtype: str"

/-- A scientific-style docstring: a section title followed by a dash
underline, entries of the form `name : type` with indented descriptions. -/
def scientificStyleDoc : String :=
  "Parameters\n----------\nx : array_like\n    Angle, in radians."

/-- Whether the default the Merge Engine would store for `p` exists and is
unrepresentable in the serialized form. -/
def hasUnrepresentableDefault (doc : Option DocstringParserResult)
    (p : SigParam) : Bool :=
  match mergedDefault doc p with
  | some v => !representable v
  | none => false

/-- The declared parameter list of `test_nested_partial`'s
`example(a, b, c=3, d=4)`. -/
def nestedExampleParams : List SigParam :=
  [{ name := "a" }, { name := "b" }, { name := "c", default := some (.vInt 3) },
   { name := "d", default := some (.vInt 4) }]

/-- The normalized docstring record of
`test_function_method_parse_param_from_docstring_with_diff`: the docstring
declares `a` as `float` while the signature annotates `a: int`. -/
def diffDocRecord : DocstringParserResult :=
  { input_params := [
      { name := "a", description := some "This is an integer.",
        type := some (.str "float"), optional := some false,
        positional := some true },
      { name := "b", description := some "This is an optional integer.",
        type := some (.str "int"), default := some (.vInt 1),
        optional := some true, positional := some false }],
    output_params := [
      { name := some "out0", type := some (.str "int"),
        description := some "the result." },
      { name := some "out1", type := some (.str "float"),
        description := some "the second result." }] }

/-- The declaration of `docstring_type(a: int, b=None)` carrying
`diffDocRecord` (signature says `int` for `a`, docstring says `float`). -/
def diffMergeDecl : FuncDecl :=
  { name := "docstring_type",
    params := [{ name := "a", annot := some "int" },
               { name := "b", default := some .vNone }],
    docstring := some diffDocRecord }

/-- `unserializable_default(a={"unserializable": set()})` of
`test_function_method_parse_unserializable_default`. -/
def unserializableDecl : FuncDecl :=
  { name := "unserializable_default",
    params := [{ name := "a",
                 default := some (.vDict
                   (.cons (.vStr "unserializable") (.vSet .nil) .nil)) }] }

/-! ## General helper lemmas -/

theorem dropWhile_idem (p : Char → Bool) (l : List Char) :
    (l.dropWhile p).dropWhile p = l.dropWhile p := by
  induction l with
  | nil => rfl
  | cons c rest ih =>
    by_cases h : p c
    · simp [List.dropWhile_cons, h, ih]
    · simp [List.dropWhile_cons, h]

theorem dropWhile_of_isPrefix (p : Char → Bool) (x y : List Char)
    (hx : x.dropWhile p = x) (hpre : y <+: x) : y.dropWhile p = y := by
  cases y with
  | nil => rfl
  | cons c t =>
    obtain ⟨rest, hrest⟩ := hpre
    subst hrest
    by_cases h : p c
    · exfalso
      rw [List.cons_append, List.dropWhile_cons, if_pos h] at hx
      have hle := ((List.dropWhile_suffix (l := t ++ rest) p).sublist).length_le
      have hlen := congrArg List.length hx
      simp only [List.length_cons] at hlen
      omega
    · simp [List.dropWhile_cons, h]

theorem dropWhileRight_idem (p : Char → Bool) (l : List Char) :
    dropWhileRight p (dropWhileRight p l) = dropWhileRight p l := by
  simp [dropWhileRight, dropWhile_idem]

theorem dropWhileRight_isPrefix (p : Char → Bool) (l : List Char) :
    dropWhileRight p l <+: l := by
  have h : l.reverse.dropWhile p <:+ l.reverse := List.dropWhile_suffix p
  have h2 := List.reverse_prefix.mpr h
  simpa [dropWhileRight] using h2

theorem stripWhile_eq (p : Char → Bool) (l : List Char) :
    stripWhile p l = dropWhileRight p (l.dropWhile p) := rfl

theorem stripWhile_idem (p : Char → Bool) (l : List Char) :
    stripWhile p (stripWhile p l) = stripWhile p l := by
  rw [stripWhile_eq, stripWhile_eq]
  have h1 : (dropWhileRight p (l.dropWhile p)).dropWhile p
      = dropWhileRight p (l.dropWhile p) :=
    dropWhile_of_isPrefix p (l.dropWhile p) _ (dropWhile_idem p l)
      (dropWhileRight_isPrefix p (l.dropWhile p))
  rw [h1, dropWhileRight_idem]

theorem toList_mk (l : List Char) : (String.mk l).toList = l := rfl

theorem pyStrip_idem (s : String) : pyStrip (pyStrip s) = pyStrip s := by
  simp [pyStrip, toList_mk, stripWhile_idem]

theorem mergeKw_nil (b : List (String × Val)) : mergeKw [] b = b := by
  simp [mergeKw]

theorem mapMExc_get? {α β : Type} (f : α → Except PyExc β) :
    ∀ (l : List α) (l' : List β), mapMExc f l = .ok l' →
    ∀ (i : Nat) (x : α), l[i]? = some x →
    ∃ y, f x = .ok y ∧ l'[i]? = some y := by
  intro l
  induction l with
  | nil => intro l' _ i x hx; simp at hx
  | cons a rest ih =>
    intro l' hl i x hx
    rw [mapMExc] at hl
    cases hfa : f a with
    | error e => simp [hfa] at hl
    | ok b =>
      cases hrest : mapMExc f rest with
      | error e => simp [hfa, hrest] at hl
      | ok bs =>
        simp [hfa, hrest] at hl
        subst hl
        cases i with
        | zero =>
          simp at hx
          subst hx
          exact ⟨b, hfa, by simp⟩
        | succ j =>
          simp at hx
          obtain ⟨y, hy, hy'⟩ := ih bs hrest j x hx
          exact ⟨y, hy, by simpa using hy'⟩

theorem mapMState_get? {α β : Type}
    (f : Registry → α → Except PyExc (β × Registry)) :
    ∀ (l : List α) (reg : Registry) (l' : List β) (reg' : Registry),
    mapMState f reg l = .ok (l', reg') →
    ∀ (i : Nat) (x : α), l[i]? = some x →
    ∃ r1 y r2, f r1 x = .ok (y, r2) ∧ l'[i]? = some y := by
  intro l
  induction l with
  | nil => intro reg l' reg' _ i x hx; simp at hx
  | cons a rest ih =>
    intro reg l' reg' hl i x hx
    rw [mapMState] at hl
    cases hfa : f reg a with
    | error e => simp [hfa] at hl
    | ok br =>
      obtain ⟨b, r1⟩ := br
      cases hrest : mapMState f r1 rest with
      | error e => simp [hfa, hrest] at hl
      | ok bsr =>
        obtain ⟨bs, r2⟩ := bsr
        simp [hfa, hrest] at hl
        obtain ⟨hl1, hl2⟩ := hl
        subst hl1
        cases i with
        | zero =>
          simp at hx
          subst hx
          exact ⟨reg, b, r1, hfa, by simp⟩
        | succ j =>
          simp at hx
          obtain ⟨ra, y, rb, hy, hy'⟩ := ih r1 bs r2 hrest j x hx
          exact ⟨ra, y, rb, hy, by simpa using hy'⟩

/-! ## Normalizer-specific lemmas (for C6) -/

theorem stepExtractDefault_positional (desc : String) (p : PInParam) :
    (stepExtractDefault desc p).positional = p.positional := by
  unfold stepExtractDefault
  repeat' split
  all_goals simp_all

theorem stepExtractDefault_optional (desc : String) (p : PInParam) :
    (stepExtractDefault desc p).optional = p.optional := by
  unfold stepExtractDefault
  repeat' split
  all_goals simp_all

theorem stepExtractDefault_default (desc : String) (p : PInParam)
    (hd : p.default.isSome = true) :
    (stepExtractDefault desc p).default.isSome = true := by
  unfold stepExtractDefault
  repeat' split
  all_goals simp_all

theorem stepDequote_positional (p : PInParam) :
    (stepDequote p).positional = p.positional := by
  unfold stepDequote
  split
  · split <;> simp
  · rfl

theorem stepDequote_optional (p : PInParam) :
    (stepDequote p).optional = p.optional := by
  unfold stepDequote
  split
  · split <;> simp
  · rfl

theorem stepDequote_default (p : PInParam) (hd : p.default.isSome = true) :
    (stepDequote p).default.isSome = true := by
  unfold stepDequote
  split
  · split <;> simp_all
  · exact hd

theorem stepDefaultsTo_positional (d0 : String) (p : PInParam) :
    (stepDefaultsTo d0 p).positional = p.positional := by
  unfold stepDefaultsTo
  rw [stepDequote_positional, stepExtractDefault_positional]

theorem stepDefaultsTo_optional (d0 : String) (p : PInParam) :
    (stepDefaultsTo d0 p).optional = p.optional := by
  unfold stepDefaultsTo
  rw [stepDequote_optional, stepExtractDefault_optional]

theorem stepDefaultsTo_default (d0 : String) (p : PInParam)
    (hd : p.default.isSome = true) :
    (stepDefaultsTo d0 p).default.isSome = true := by
  unfold stepDefaultsTo
  exact stepDequote_default _ (stepExtractDefault_default _ _ hd)

theorem stepCoerce_invariant (reg reg4 : Registry) (p p4 : PInParam)
    (h : stepCoerce reg p = .ok (p4, reg4)) :
    p4.positional = p.positional ∧ p4.optional = p.optional ∧
    p4.default.isSome = p.default.isSome := by
  unfold stepCoerce at h
  repeat' split at h
  all_goals simp_all
  all_goals (obtain ⟨h1, h2⟩ := h; subst h1; simp_all)

theorem stepTypeCollapse_invariant (reg4 reg5 : Registry) (p4 p5 : PInParam)
    (h : stepTypeCollapse reg4 p4 = .ok (p5, reg5)) :
    p5.positional = p4.positional ∧ p5.optional = p4.optional ∧
    p5.default = p4.default := by
  unfold stepTypeCollapse at h
  repeat' split at h
  all_goals simp_all
  all_goals (obtain ⟨h1, h2⟩ := h; subst h1; simp_all)

theorem finishInputParam_flags (d2 : String) (p : PInParam)
    (hd : p.default.isSome = true) (hp : p.positional = none)
    (ho : p.optional = none) :
    (finishInputParam d2 p).positional = some false ∧
    (finishInputParam d2 p).optional = some true := by
  unfold finishInputParam
  simp [hp, ho, hd]
  split
  all_goals simp_all

theorem processInputParam_flags (reg reg' : Registry) (p p' : PInParam)
    (hd : p.default.isSome = true) (hp : p.positional = none)
    (ho : p.optional = none)
    (h : processInputParam reg p = .ok (p', reg')) :
    p'.positional = some false ∧ p'.optional = some true := by
  unfold processInputParam at h
  cases hdesc : p.description with
  | none => rw [hdesc] at h; simp at h
  | some d0 =>
    rw [hdesc] at h
    cases hc : stepCoerce reg (stepDefaultsTo d0 p) with
    | error e => simp [hc] at h
    | ok pr =>
      obtain ⟨p4, reg4⟩ := pr
      cases ht : stepTypeCollapse reg4 p4 with
      | error e => simp [hc, ht] at h
      | ok pr' =>
        obtain ⟨p5, reg5⟩ := pr'
        simp [hc, ht] at h
        obtain ⟨h1, h2⟩ := h
        obtain ⟨hc1, hc2, hc3⟩ := stepCoerce_invariant _ _ _ _ hc
        obtain ⟨ht1, ht2, ht3⟩ := stepTypeCollapse_invariant _ _ _ _ ht
        have h5d : p5.default.isSome = true := by
          rw [ht3, hc3, stepDefaultsTo_default d0 p hd]
        have h5p : p5.positional = none := by
          rw [ht1, hc1, stepDefaultsTo_positional, hp]
        have h5o : p5.optional = none := by
          rw [ht2, hc2, stepDefaultsTo_optional, ho]
        rw [← h1]
        exact finishInputParam_flags _ _ h5d h5p h5o

theorem stripSummary_input_params (r : DocstringParserResult) :
    (stripSummary r).input_params = r.input_params := by
  unfold stripSummary
  split <;> rfl

/-- If one resolve-then-render cycle of the codec is a fixpoint of the
registry, every further cycle returns the same rendered text. -/
theorem renderLoop_const (reg : Registry) (s : String) (t : PyType)
    (o : String) (h1 : string_to_type 50 reg (.str s) = .ok (t, reg))
    (h2 : type_to_string_ty 50 reg t = .ok (o, reg)) :
    ∀ n, renderLoop reg s n = List.replicate n o := by
  intro n
  induction n with
  | zero => rfl
  | succ m ih =>
    rw [renderLoop, h1]
    simp only []
    rw [h2]
    simp [ih, List.replicate_succ]

/-! ## The claim theorems -/

set_option maxRecDepth 100000
set_option maxHeartbeats 4000000

/-- **C3**: parsing the structured-field scenario docstring yields exactly
the record the spec describes: `a` with canonical type `int`, default
coerced to the integer `1`, `optional=true`, `positional=false`, clause
stripped from the description and a trailing period appended; `b` with type
`str`, `positional=true`, `optional=false`; the `ValueError` exception
entry; and a single output named `out` of type `str` with its description —
with the original text retained and no summary. -/
theorem C3_structured_field_scenario :
    parse_restructured_docstring initialRegistry basicRstDocstring = .ok (
      { original := some basicRstDocstring,
        summary := none,
        input_params := [
          { name := "a", description := some "The first parameter.",
            type := some (.str "int"), default := some (.vInt 1),
            optional := some true, positional := some false },
          { name := "b", description := some "The second parameter.",
            type := some (.str "str"), default := none,
            optional := some false, positional := some true }],
        output_params := [
          { name := some "out", type := some (.str "str"),
            description := some "A string representation." }],
        exceptions := [("ValueError", "When something is wrong.")] },
      initialRegistry) := by
  decide

/-- **C4** (code-bug evidence): the dialect selector in
`docstring_parser.py` has no scientific-style branch at all — the module
does not even define a scientific/numpy parser — so a docstring with a
section title and dash underline (and no structured-field marker) selects
no parser, and the top-level parse degrades to a summary-only record,
where the claim (and the repository's own `test_np_ufuns.py`, which imports
`parse_numpy_docstring` from this module and asserts it is selected)
requires routing to the scientific parser. -/
theorem C4_scientific_docstring_selects_none :
    select_extraction_function scientificStyleDoc = none ∧
    parse_docstring initialRegistry scientificStyleDoc = .ok (
      { original := some scientificStyleDoc,
        summary := some scientificStyleDoc,
        input_params := [], output_params := [], exceptions := [] },
      initialRegistry) := by
  decide

/-- **C7**: `add_type` keeps the two registry mappings consistent — reusing
a registered name raises `ValueError` (mutating nothing, since the error is
raised before any write), while registering a new name for an identity that
already has a canonical name leaves the identity→name mapping untouched
(first-registered name stays canonical) and only adds the name→identity
entry. -/
theorem C7_add_type_first_registered_wins :
    ∀ (reg : Registry) (t : PyType) (name : String),
    ((lookupName reg name).isSome = true →
      add_type reg t name =
        .error (.valueError ("Type " ++ name ++ " already exists."))) ∧
    (lookupName reg name = none → (lookupType reg t).isSome = true →
      ∃ reg', add_type reg t name = .ok reg' ∧
        reg'.stringGetter = reg.stringGetter ∧
        lookupType reg' t = lookupType reg t ∧
        lookupName reg' name = some t ∧
        ∀ n, n ≠ name → lookupName reg' n = lookupName reg n) := by
  intro reg t name
  constructor
  · intro h
    simp [add_type, h]
  · intro h1 h2
    have hfind : reg.typeGetter.find? (fun p => p.1 = name) = none := by
      unfold lookupName at h1
      exact Option.map_eq_none.mp h1
    refine ⟨{ reg with typeGetter := reg.typeGetter ++ [(name, t)] },
      ?_, rfl, rfl, ?_, ?_⟩
    · simp [add_type, h1, h2]
    · unfold lookupName
      simp [List.find?_append, hfind]
    · intro n hn
      unfold lookupName
      simp only [List.find?_append, hfind]
      have hsingle :
          List.find? (fun p => decide (p.1 = n)) [(name, t)] = none := by
        have hd : decide (name = n) = false := decide_eq_false (Ne.symm hn)
        simp [List.find?_cons, hd]
      simp [hsingle, hfind]

/-- Closed witness for C7: on the seeded registry, re-registering the taken
name `"int"` errors, and registering the fresh name `"myint"` for `int`
(whose canonical name exists) keeps `int`'s canonical name `"int"`. -/
theorem C7_add_type_first_registered_wins_witness :
    add_type initialRegistry (.atom "int") "int" =
      .error (.valueError "Type int already exists.") ∧
    ∃ reg', add_type initialRegistry (.atom "int") "myint" = .ok reg' ∧
      reg'.stringGetter = initialRegistry.stringGetter ∧
      lookupType reg' (.atom "int") = some "int" ∧
      lookupName reg' "myint" = some (.atom "int") := by
  have h1 := (C7_add_type_first_registered_wins initialRegistry (.atom "int")
    "int").1 (by decide)
  have h2 := (C7_add_type_first_registered_wins initialRegistry (.atom "int")
    "myint").2 (by decide) (by decide)
  obtain ⟨reg', ha, hb, hc, hd, _⟩ := h2
  exact ⟨h1, reg', ha, hb, by rw [hc]; decide, hd⟩

/-- **C8**: whenever the dialect selector matches nothing, the top-level
`parse_docstring` returns a record with empty `input_params`,
`output_params` and `exceptions`, the whole text (trimmed) as the summary,
and the original docstring verbatim in `original`. -/
theorem C8_summary_only_fallback :
    ∀ (reg : Registry) (docstring : String),
    select_extraction_function docstring = none →
    parse_docstring reg docstring = .ok (
      { original := some docstring, summary := some (pyStrip docstring),
        input_params := [], output_params := [], exceptions := [] },
      reg) := by
  intro reg d h
  unfold parse_docstring
  rw [h]
  have hbase : _unify_parser_results reg { summary := some d } d = .ok (
      { original := some d, summary := some (pyStrip (pyStrip d)),
        input_params := [], output_params := [], exceptions := [] },
      reg) := rfl
  rw [hbase, pyStrip_idem]

/-- Closed witness for C8 at a plain prose docstring. -/
theorem C8_summary_only_fallback_witness :
    parse_docstring initialRegistry "  Just a short remark without fields  "
      = .ok (
      { original := some "  Just a short remark without fields  ",
        summary := some "Just a short remark without fields",
        input_params := [], output_params := [], exceptions := [] },
      initialRegistry) := by
  have h := C8_summary_only_fallback initialRegistry
    "  Just a short remark without fields  " (by decide)
  rw [h]
  decide

/-- **C9**: the Signature Resolver folds nested partial applications
transitively — resolving a partial over a partial equals resolving one
partial carrying both layers' positional arguments (inner first) and merged
keyword arguments — the visible parameters are a subsequence of the declared
ones (declaration order and original defaults preserved), every supplied
argument is recorded as the bound value of the parameter it fixes, and on
`test_nested_partial`'s `example(a, b, c=3, d=4)` with `partial(partial(f,
1, d=5), 2)` only `c` (default `3`) stays visible. -/
theorem C9_nested_partials_fold_transitively :
    ∀ (ps : List SigParam) (a1 a2 : List Val)
      (k1 k2 : List (String × Val)),
    get_resolved_signature (.bound (.bound (.base ps) a1 k1) a2 k2)
      = get_resolved_signature (.bound (.base ps) (a1 ++ a2) (mergeKw k1 k2)) ∧
    (get_resolved_signature (.bound (.bound (.base ps) a1 k1) a2 k2)).1.Sublist
      ps ∧
    get_resolved_signature
      (.bound (.bound (.base nestedExampleParams) [.vInt 1] [("d", .vInt 5)])
        [.vInt 2] [])
      = ([{ name := "c", default := some (.vInt 3) }],
         [("a", .vInt 1), ("b", .vInt 2), ("d", .vInt 5)]) := by
  intro ps a1 a2 k1 k2
  refine ⟨?_, ?_, by decide⟩
  · simp [get_resolved_signature, collectBound, mergeKw_nil, List.append_assoc]
  · simp only [get_resolved_signature, collectBound]
    exact (List.filter_sublist _).trans (List.drop_sublist _ _)

/-- **C10**: the alias names `integer`, `floating`, `string`, `boolean` and
`number` are accepted by `string_to_type` (resolving to `int`, `float`,
`str`, `bool` and the int-or-float union, without touching the registry),
but `type_to_string` renders those identities under their canonical names
(`int`, `float`, `str`, `bool`, `Union[int, float]`), so the
render-after-resolve composite differs from every one of the five
aliases. -/
theorem C10_alias_names_are_asymmetric :
    (string_to_type 50 initialRegistry (.str "integer")
       = .ok (.atom "int", initialRegistry) ∧
     string_to_type 50 initialRegistry (.str "floating")
       = .ok (.atom "float", initialRegistry) ∧
     string_to_type 50 initialRegistry (.str "string")
       = .ok (.atom "str", initialRegistry) ∧
     string_to_type 50 initialRegistry (.str "boolean")
       = .ok (.atom "bool", initialRegistry) ∧
     string_to_type 50 initialRegistry (.str "number")
       = .ok (unionOf [.atom "int", .atom "float"], initialRegistry)) ∧
    ((type_to_string_ty 50 initialRegistry (.atom "int")).map Prod.fst
       = .ok "int" ∧
     (type_to_string_ty 50 initialRegistry (.atom "float")).map Prod.fst
       = .ok "float" ∧
     (type_to_string_ty 50 initialRegistry (.atom "str")).map Prod.fst
       = .ok "str" ∧
     (type_to_string_ty 50 initialRegistry (.atom "bool")).map Prod.fst
       = .ok "bool" ∧
     (type_to_string_ty 50 initialRegistry
        (unionOf [.atom "int", .atom "float"])).map Prod.fst
       = .ok "Union[int, float]") ∧
    ("int" ≠ "integer" ∧ "float" ≠ "floating" ∧ "str" ≠ "string" ∧
     "bool" ≠ "boolean" ∧ "Union[int, float]" ≠ "number") := by
  decide

/-- **C6**: for every draft input parameter carrying a default and carrying
neither an explicit `optional` nor an explicit `positional` flag, the
Normalizer (`_unify_parser_results`) sets `optional=true` and
`positional=false` on the corresponding normalized parameter. -/
theorem C6_default_implies_optional_keyword :
    ∀ (reg reg' : Registry) (doc : String) (res out : DocstringParserResult)
      (i : Nat) (p : PInParam),
    res.input_params[i]? = some p →
    p.default.isSome = true → p.positional = none → p.optional = none →
    _unify_parser_results reg res doc = .ok (out, reg') →
    ∃ p', out.input_params[i]? = some p' ∧
      p'.positional = some false ∧ p'.optional = some true := by
  intro reg reg' doc res out i p hi hd hp ho h
  unfold _unify_parser_results at h
  set R := stripSummary { res with original := some doc } with hR
  cases hm : mapMState processInputParam reg R.input_params with
  | error e => simp [hm] at h
  | ok pr =>
    obtain ⟨ips, reg1⟩ := pr
    have hi' : R.input_params[i]? = some p := by
      rw [hR, stripSummary_input_params]
      simpa using hi
    obtain ⟨r1, p', r2, hproc, hips⟩ := mapMState_get? _ _ _ _ _ hm i p hi'
    have hflags := processInputParam_flags r1 r2 p p' hd hp ho hproc
    cases h2 : mapMState (processOutputParam R.output_params.length) reg1
        (withIndex R.output_params) with
    | error e => simp [hm, h2] at h
    | ok pr2 =>
      obtain ⟨ops, reg2⟩ := pr2
      cases h3 : mapMState stripOutputDescription reg2 ops with
      | error e => simp [hm, h2, h3] at h
      | ok pr3 =>
        obtain ⟨ops2, reg3⟩ := pr3
        simp [hm, h2, h3] at h
        obtain ⟨h4, h5⟩ := h
        have hout : out.input_params = ips := by
          rw [← h4, stripSummary_input_params]
        rw [hout]
        exact ⟨p', hips, hflags⟩

/-- Closed witness for C6: a draft parameter with default `"1"`, no
explicit flags and a plain description gets `optional=true`,
`positional=false`. -/
theorem C6_default_implies_optional_keyword_witness :
    ∃ out reg' p',
      _unify_parser_results initialRegistry
        { input_params := [
            { name := "a", description := some "a value",
              default := some (.vStr "1") }] } "doc" = .ok (out, reg') ∧
      out.input_params[0]? = some p' ∧
      p'.positional = some false ∧ p'.optional = some true := by
  have hu : _unify_parser_results initialRegistry
      { input_params := [
          { name := "a", description := some "a value",
            default := some (.vStr "1") }] } "doc" = .ok (
      { original := some "doc",
        input_params := [
          { name := "a", description := some "a value.",
            default := some (.vStr "1"), optional := some true,
            positional := some false }] },
      initialRegistry) := by decide
  obtain ⟨p', hp1, hp2, hp3⟩ := C6_default_implies_optional_keyword
    initialRegistry initialRegistry "doc"
    { input_params := [
        { name := "a", description := some "a value",
          default := some (.vStr "1") }] }
    { original := some "doc",
      input_params := [
        { name := "a", description := some "a value.",
          default := some (.vStr "1"), optional := some true,
          positional := some false }] }
    0
    { name := "a", description := some "a value",
      default := some (.vStr "1") }
    (by decide) (by decide) rfl rfl hu
  exact ⟨_, _, p', hu, hp1, hp2, hp3⟩

/-- **C1**: when a signature parameter is annotated with one type and the
docstring declares a different type for the same name, the merge stores the
signature's annotation as the top-level type, while the nested docstring
record inside the result keeps the docstring's own conflicting type
unmodified — the two are never unified. -/
theorem C1_signature_annotation_authoritative :
    ∀ (decl : FuncDecl) (d : DocstringParserResult) (i : Nat) (p : SigParam)
      (t1 : String) (dp : PInParam) (t2 : String) (sf : SerializedFunction),
    decl.docstring = some d →
    decl.params[i]? = some p →
    p.annot = some t1 →
    d.input_params.find? (fun q => q.name = p.name) = some dp →
    dp.type = some (.str t2) →
    function_method_parse decl = .ok sf →
    (∃ q, sf.input_params[i]? = some q ∧ q.type = some (.str t1)) ∧
    sf.docstring = some d ∧
    (docParamFor sf.docstring p.name).bind (fun q => q.type) =
      some (.str t2) := by
  intro decl d i p t1 dp t2 sf hdoc hi hann hfind hdp h
  unfold function_method_parse at h
  cases hm : mapMExc (mergeInputParam decl.docstring) decl.params with
  | error e => simp [hm] at h
  | ok ips =>
    simp [hm] at h
    obtain ⟨q, hq, hq'⟩ := mapMExc_get? _ _ _ hm i p hi
    have hqty : q.type = some (.str t1) := by
      unfold mergeInputParam at hq
      rw [hann] at hq
      cases hdflt : mergedDefault decl.docstring p with
      | none =>
        rw [hdflt] at hq
        simp at hq
        subst hq
        rfl
      | some v =>
        rw [hdflt] at hq
        by_cases hrep : representable v = true
        · simp [hrep] at hq
          subst hq
          rfl
        · rw [Bool.not_eq_true] at hrep
          simp [hrep] at hq
    refine ⟨⟨q, ?_, hqty⟩, ?_, ?_⟩
    · rw [← h]
      exact hq'
    · rw [← h]
      show decl.docstring = some d
      exact hdoc
    · rw [← h]
      show (docParamFor decl.docstring p.name).bind (fun q => q.type) = _
      rw [hdoc]
      unfold docParamFor
      simp [hfind, hdp]

/-- Closed witness for C1 at `docstring_type(a: int, b=None)` with the
conflicting docstring (`a` declared `float` there): the merged record's
first parameter stores `int`, the nested docstring still stores `float`. -/
theorem C1_signature_annotation_authoritative_witness :
    ∃ sf, function_method_parse diffMergeDecl = .ok sf ∧
      (∃ q, sf.input_params[0]? = some q ∧ q.type = some (.str "int")) ∧
      sf.docstring = some diffDocRecord ∧
      (docParamFor sf.docstring "a").bind (fun q => q.type) =
        some (.str "float") := by
  have hsf : function_method_parse diffMergeDecl = .ok (
      { name := "docstring_type",
        input_params := [
          { name := "a", description := some "This is an integer.",
            type := some (.str "int"), positional := some true,
            optional := some false },
          { name := "b", description := some "This is an optional integer.",
            type := some (.str "int"), default := some .vNone,
            positional := some false, optional := some true }],
        output_params := [
          { name := some "out0", type := some (.str "int"),
            description := some "the result." },
          { name := some "out1", type := some (.str "float"),
            description := some "the second result." }],
        docstring := some diffDocRecord }) := by decide
  exact ⟨_, hsf,
    C1_signature_annotation_authoritative diffMergeDecl diffDocRecord 0
      { name := "a", annot := some "int" } "int"
      { name := "a", description := some "This is an integer.",
        type := some (.str "float"), optional := some false,
        positional := some true } "float" _
      rfl (by decide) rfl (by decide) rfl hsf⟩

/-- A parameter whose effective default is unrepresentable makes the merge
loop fail with `FunctionParamError` naming the first such parameter. -/
theorem mergeLoop_unrepresentable (doc : Option DocstringParserResult) :
    ∀ (l : List SigParam),
    (∃ p ∈ l, hasUnrepresentableDefault doc p = true) →
    ∃ q ∈ l, hasUnrepresentableDefault doc q = true ∧
      mapMExc (mergeInputParam doc) l =
        .error (.functionParamError q.name) := by
  intro l
  induction l with
  | nil => intro ⟨p, hp, _⟩; simp at hp
  | cons a rest ih =>
    intro hex
    by_cases hbad : hasUnrepresentableDefault doc a = true
    · have herr : mergeInputParam doc a = .error (.functionParamError a.name) := by
        unfold hasUnrepresentableDefault at hbad
        unfold mergeInputParam
        cases hmd : mergedDefault doc a with
        | none => rw [hmd] at hbad; simp at hbad
        | some v =>
          rw [hmd] at hbad
          simp at hbad
          simp [hmd, hbad]
      refine ⟨a, by simp, hbad, ?_⟩
      rw [mapMExc, herr]
    · have hok : ∃ b, mergeInputParam doc a = .ok b := by
        unfold hasUnrepresentableDefault at hbad
        unfold mergeInputParam
        cases hmd : mergedDefault doc a with
        | none => exact ⟨_, rfl⟩
        | some v =>
          rw [hmd] at hbad
          simp at hbad
          simp [hmd, hbad]
      obtain ⟨b, hb⟩ := hok
      have hexr : ∃ p ∈ rest, hasUnrepresentableDefault doc p = true := by
        obtain ⟨p, hp, hpb⟩ := hex
        cases List.mem_cons.mp hp with
        | inl heq => subst heq; exact absurd hpb hbad
        | inr hmem => exact ⟨p, hmem, hpb⟩
      obtain ⟨q, hqmem, hqbad, hqerr⟩ := ih hexr
      refine ⟨q, List.mem_cons_of_mem a hqmem, hqbad, ?_⟩
      rw [mapMExc, hb, hqerr]

/-- **C5**: a callable having a parameter whose (effective) default value
cannot be represented in the serialized form makes `function_method_parse`
fail with `FunctionParamError` naming an offending parameter — a hard
failure, with no partial `SerializedFunction` result. -/
theorem C5_unserializable_default_hard_failure :
    ∀ (decl : FuncDecl),
    (∃ p ∈ decl.params, hasUnrepresentableDefault decl.docstring p = true) →
    ∃ q ∈ decl.params, hasUnrepresentableDefault decl.docstring q = true ∧
      function_method_parse decl =
        .error (.functionParamError q.name) ∧
      ∀ sf, function_method_parse decl ≠ .ok sf := by
  intro decl hex
  obtain ⟨q, hqmem, hqbad, hqerr⟩ :=
    mergeLoop_unrepresentable decl.docstring decl.params hex
  have hfail : function_method_parse decl =
      .error (.functionParamError q.name) := by
    unfold function_method_parse
    rw [hqerr]
  exact ⟨q, hqmem, hqbad, hfail, fun sf hsf => by
    rw [hfail] at hsf; cases hsf⟩

/-- Closed witness for C5 at `unserializable_default(a={"unserializable":
set()})`: the parse fails naming `a`. -/
theorem C5_unserializable_default_hard_failure_witness :
    ∃ q ∈ unserializableDecl.params,
      hasUnrepresentableDefault unserializableDecl.docstring q = true ∧
      function_method_parse unserializableDecl =
        .error (.functionParamError q.name) ∧
      ∀ sf, function_method_parse unserializableDecl ≠ .ok sf :=
  C5_unserializable_default_hard_failure unserializableDecl
    ⟨{ name := "a",
       default := some (.vDict (.cons (.vStr "unserializable")
         (.vSet .nil) .nil)) }, by decide, by decide⟩

/-- **C2**: the codec round-trips — `string_to_type(type_to_string(x)) ==
x` for every seeded primitive identity and for every supported composite
shape (`List`, `Dict`, `Tuple`, `Union`, `Optional`, `Set`, `Literal`,
`Type`) over the class pool — and rendering is stable: for each textual
name, after the first resolve-and-render cycle the registry is a fixpoint
returning the same identity and text (third conjunct), and from any such
fixpoint every repeated `type_to_string(string_to_type(s))` cycle returns
the same string (fourth conjunct). -/
theorem C2_codec_round_trip_and_stability :
    (seededPrimitives.all roundTripsToSelf) = true ∧
    (oneLevelShapes.all roundTripsToSelf) = true ∧
    (stableStrings.all stableCheck) = true ∧
    (∀ (reg : Registry) (s : String) (t : PyType) (o : String),
      string_to_type 50 reg (.str s) = .ok (t, reg) →
      type_to_string_ty 50 reg t = .ok (o, reg) →
      ∀ n, renderLoop reg s n = List.replicate n o) := by
  refine ⟨by decide, by decide, by decide, ?_⟩
  intro reg s t o h1 h2 n
  exact renderLoop_const reg s t o h1 h2 n

/-- Closed witness for C2's stability conjunct: three successive render
cycles of `"List[int]"` from its post-registration registry all return
`"List[int]"`. -/
theorem C2_codec_round_trip_and_stability_witness :
    renderLoop regListInt "List[int]" 3 =
      ["List[int]", "List[int]", "List[int]"] := by
  have h := C2_codec_round_trip_and_stability.2.2.2 regListInt "List[int]"
    (.tList (.atom "int")) "List[int]" (by decide) (by decide) 3
  simpa using h

end ExposedFunctionality
